import Mathlib

/-!
Verification of the interactive-video overlay engine.

The definitions below are a shallow embedding of the JavaScript source
(`getOverlaysForVideo`, `parseNextAction`, `shuffleArray`, `getStudentReport`,
`generateReportSummary`, `updateAppSettings`, `getAppSettings`).  Spreadsheet
cells are modelled as strings; the external tabular store is modelled with
plain get/append semantics (a row list holding exactly the values the code
wrote).  JavaScript string primitives (`split`, `trim`, `toLowerCase`,
`toUpperCase`, `includes`, `startsWith`, `parseInt`) are modelled as
executable functions over the character list of a string.  Randomness used by
the shuffler is modelled as an explicit function argument, universally
quantified in every theorem, so the theorems cover every possible run.
-/

/-- Model of JavaScript `String.prototype.split` with a one-character
separator, on character lists: always returns at least one piece. -/
def jsSplitChars (sep : Char) : List Char → List (List Char)
  | [] => [[]]
  | c :: cs =>
    if c = sep then
      [] :: jsSplitChars sep cs
    else
      match jsSplitChars sep cs with
      | p :: ps => (c :: p) :: ps
      | [] => [[c]]

/-- Model of JavaScript `s.split(sep)` for a one-character separator. -/
def jsSplit (s : String) (sep : Char) : List String :=
  (jsSplitChars sep s.toList).map String.mk

/-- Model of JavaScript `s.trim()`: drop leading and trailing whitespace. -/
def jsTrim (s : String) : String :=
  String.mk ((((s.toList.dropWhile Char.isWhitespace).reverse.dropWhile
    Char.isWhitespace)).reverse)

/-- Model of JavaScript `s.toLowerCase()` (ASCII-faithful). -/
def jsToLower (s : String) : String :=
  String.mk (s.toList.map Char.toLower)

/-- Model of JavaScript `s.toUpperCase()` (ASCII-faithful). -/
def jsToUpper (s : String) : String :=
  String.mk (s.toList.map Char.toUpper)

/-- Does `pat` occur as a contiguous segment of `cs`?  Model of
JavaScript `String.prototype.includes` on character lists. -/
def containsSeg (pat : List Char) : List Char → Bool
  | [] => pat.isEmpty
  | c :: cs => pat.isPrefixOf (c :: cs) || containsSeg pat cs

/-- Model of JavaScript `s.includes(pat)`. -/
def strContains (s pat : String) : Bool :=
  containsSeg pat.toList s.toList

/-- Model of JavaScript `s.startsWith(pre)`. -/
def jsStartsWith (s pre : String) : Bool :=
  pre.toList.isPrefixOf s.toList

/-- Numeric value of a run of decimal digits. -/
def digitsToNat (ds : List Char) : Nat :=
  ds.foldl (fun a c => a * 10 + (c.toNat - '0'.toNat)) 0

/-- Model of JavaScript `parseInt(s, 10)`: skip leading whitespace, read an
optional sign and a leading run of decimal digits; `none` models `NaN`
(no digits at all). -/
def jsParseInt (s : String) : Option Int :=
  let cs := s.toList.dropWhile Char.isWhitespace
  match cs with
  | '-' :: rest =>
    let ds := rest.takeWhile Char.isDigit
    if ds.isEmpty then none else some (-(digitsToNat ds : Int))
  | '+' :: rest =>
    let ds := rest.takeWhile Char.isDigit
    if ds.isEmpty then none else some (digitsToNat ds : Int)
  | rest =>
    let ds := rest.takeWhile Char.isDigit
    if ds.isEmpty then none else some (digitsToNat ds : Int)

/-- Model of the JavaScript string-or-default idiom `a || b` on strings:
the empty string is the only falsy string. -/
def jsOr (a b : String) : String :=
  if a = "" then b else a

/-- Swap the elements at positions `i` and `j`, the identity when either
index is out of range.  Model of the simultaneous assignment
`[a[i], a[j]] = [a[j], a[i]]`. -/
def swapIdx (l : List α) (i j : Nat) : List α :=
  if h : i < l.length ∧ j < l.length then
    (l.set i (l.get ⟨j, h.2⟩)).set j (l.get ⟨i, h.1⟩)
  else
    l

/-- The Fisher–Yates loop of `shuffleArray`: counter `i` runs downward,
swapping position `i` with position `rand i % (i+1)`. -/
def fyLoop (rand : Nat → Nat) : Nat → List α → List α
  | 0, l => l
  | i + 1, l => fyLoop rand i (swapIdx l (i + 1) (rand (i + 1) % (i + 2)))

/-- Model of `shuffleArray`: Fisher–Yates on a copy of the input, with the
values drawn from `Math.random` modelled by the explicit `rand` argument
(`rand i % (i+1)` plays the role of `Math.floor(Math.random() * (i+1))`). -/
def shuffleArray (rand : Nat → Nat) (l : List α) : List α :=
  fyLoop rand (l.length - 1) l

/-- Value of an overlay's action parameter.  `parseNextAction` produces
`nullP` or `strP`; the consecutive-question pass may overwrite it with a
numeric timestamp (`numP`), mirroring the dynamically typed field. -/
inductive ActionParam where
  | nullP : ActionParam
  | strP : String → ActionParam
  | numP : Int → ActionParam
deriving DecidableEq, Repr

/-- Result of `parseNextAction`: a normalized action name and parameter. -/
structure NextActionData where
  action : String
  param : ActionParam
deriving DecidableEq, Repr

/-- Embedding of `parseNextAction` from the source: empty input and
unrecognized strings fall back to `continue`; the three bare action words
map to themselves; `if_correct:`/`if_incorrect:` prefixes take
`split(':')[1].trim()` as the parameter. -/
def parseNextAction (nextAction : String) : NextActionData :=
  if nextAction = "" then
    ⟨"continue", .nullP⟩
  else if ["continue", "next_question", "end"].contains nextAction then
    ⟨nextAction, .nullP⟩
  else if jsStartsWith nextAction "if_correct:" then
    ⟨"if_correct", .strP (jsTrim ((jsSplit nextAction ':').getD 1 ""))⟩
  else if jsStartsWith nextAction "if_incorrect:" then
    ⟨"if_incorrect", .strP (jsTrim ((jsSplit nextAction ':').getD 1 ""))⟩
  else
    ⟨"continue", .nullP⟩

/-- One answer option of a quiz overlay. -/
structure AnswerOption where
  text : String
  isCorrect : Bool
  feedback : String
deriving DecidableEq, Repr

/-- Optional image attachment of an overlay. -/
structure ImageInfo where
  url : String
  width : String
  height : String
deriving DecidableEq, Repr

/-- A parsed overlay record. -/
structure Overlay where
  id : String
  timestamp : Int
  title : String
  content : String
  type : String
  nextAction : String
  actionParam : ActionParam
  options : List AnswerOption
  explanation : String
  correctFeedback : String
  incorrectFeedback : String
  groupName : String
  image : Option ImageInfo
deriving DecidableEq, Repr

/-- One raw data row of the Overlays table (all cells as strings), with
fields named after the column comments in the source: column A is
`videoTitle` (index 0) through column Q `imageHeight` (index 16). -/
structure Row where
  videoTitle : String
  timestampCell : String
  titleCell : String
  contentCell : String
  typeCell : String
  nextActionCell : String
  correctAnswer : String
  incorrect1 : String
  incorrect2 : String
  incorrect3 : String
  groupCell : String
  explanationCell : String
  correctFeedbackCell : String
  incorrectFeedbackCell : String
  imageUrl : String
  imageWidth : String
  imageHeight : String
deriving DecidableEq, Repr

/-- Does the (already lower-cased) type string select the quiz branch?
The source tests `type.includes('quiz') || type.includes('true_false')`. -/
def isQuizType (t : String) : Bool :=
  strContains t "quiz" || strContains t "true_false"

/-- Acceptance predicate of the row loop: the row's video-title cell is
truthy and equals the requested title, the timestamp parses to a nonzero
integer, and title and content cells are nonempty
(`if (!timestamp || !title || !content) continue`). -/
def rowOk (videoTitle : String) (row : Row) : Bool :=
  row.videoTitle != "" && row.videoTitle == videoTitle &&
    (match jsParseInt row.timestampCell with
     | some n => n != 0
     | none => false) &&
    row.titleCell != "" && row.contentCell != ""

/-- The correct-answer options: one per nonempty trimmed piece of the
correct-answer cell split on `|`, marked correct, with the overlay's
correct-feedback string or the generic fallback. -/
def correctOptionsOf (pieces : List String) (cf : String) : List AnswerOption :=
  pieces.foldl
    (fun acc a =>
      if jsTrim a ≠ "" then acc ++ [⟨jsTrim a, true, jsOr cf "Correct!"⟩] else acc)
    []

/-- One incorrect-answer cell contributes an option (with its raw, untrimmed
text) when it is nonempty and its trimmed form is nonempty. -/
def incorrectOptionOf (cell : String) (inf : String) : List AnswerOption :=
  if cell != "" && jsTrim cell != "" then
    [⟨cell, false, jsOr inf "Incorrect."⟩]
  else
    []

/-- The `true_false` post-processing: append a synthetic incorrect `TRUE`
and/or `FALSE` option when no existing option matches case-insensitively. -/
def ensureTrueFalse (opts : List AnswerOption) (inf : String) : List AnswerOption :=
  let hasTrueOption := opts.any (fun o => jsToUpper o.text == "TRUE")
  let hasFalseOption := opts.any (fun o => jsToUpper o.text == "FALSE")
  opts ++
    (if hasTrueOption then [] else [⟨"TRUE", false, jsOr inf "Incorrect."⟩]) ++
    (if hasFalseOption then [] else [⟨"FALSE", false, jsOr inf "Incorrect."⟩])

/-- The options list of an accepted row: built (and then shuffled) only when
the type is quiz-family and the correct-answer cell is truthy, otherwise the
initial empty list survives. -/
def optionsOf (rand : Nat → Nat) (type : String) (row : Row) : List AnswerOption :=
  if isQuizType type && row.correctAnswer != "" then
    let base :=
      correctOptionsOf (jsSplit row.correctAnswer '|') row.correctFeedbackCell ++
        incorrectOptionOf row.incorrect1 row.incorrectFeedbackCell ++
        incorrectOptionOf row.incorrect2 row.incorrectFeedbackCell ++
        incorrectOptionOf row.incorrect3 row.incorrectFeedbackCell
    let withTF := if type = "true_false" then
        ensureTrueFalse base row.incorrectFeedbackCell
      else base
    shuffleArray rand withTF
  else
    []

/-- Build the overlay record of an accepted row `row` at source row index
`i` (1-based, counting the header as row 0, as in the source loop). -/
def buildOverlay (rand : Nat → Nat) (i : Nat) (row : Row) : Overlay :=
  let type := if row.typeCell = "" then "info" else jsToLower row.typeCell
  let nextActionData := parseNextAction (jsOr row.nextActionCell "continue")
  { id := "overlay-" ++ toString i
    timestamp := (jsParseInt row.timestampCell).getD 0
    title := row.titleCell
    content := row.contentCell
    type := type
    nextAction := nextActionData.action
    actionParam := nextActionData.param
    options := optionsOf rand type row
    explanation := jsOr row.explanationCell ""
    correctFeedback := jsOr row.correctFeedbackCell ""
    incorrectFeedback := jsOr row.incorrectFeedbackCell ""
    groupName := jsOr row.groupCell ""
    image :=
      if row.imageUrl != "" then
        some ⟨row.imageUrl, jsOr row.imageWidth "auto", jsOr row.imageHeight "auto"⟩
      else
        none }

/-- The row parser: `some` overlay for an accepted row, `none` for a
silently dropped one. -/
def parseRow (rand : Nat → Nat) (i : Nat) (videoTitle : String) (row : Row) :
    Option Overlay :=
  if rowOk videoTitle row then some (buildOverlay rand i row) else none

/-- First pass over the data rows (the list below the header row), in source
order: parse each row, numbering from 1 as in the source loop.  `rands i`
supplies the shuffler randomness of row `i`. -/
def parseRows (rands : Nat → Nat → Nat) (rows : List Row) (videoTitle : String) :
    List Overlay :=
  rows.enum.filterMap (fun p => parseRow (rands (p.1 + 1)) (p.1 + 1) videoTitle p.2)

/-- Insert an overlay into a timestamp-sorted list, after every element whose
timestamp is less than or equal: together with the left fold below this is
the stable ascending sort performed by
`overlays.sort((a, b) => a.timestamp - b.timestamp)`. -/
def insertByTs (o : Overlay) : List Overlay → List Overlay
  | [] => [o]
  | x :: xs => if x.timestamp ≤ o.timestamp then x :: insertByTs o xs else o :: x :: xs

/-- Stable ascending sort by timestamp (model of the JavaScript stable
`Array.prototype.sort` with the numeric comparator). -/
def sortByTs (l : List Overlay) : List Overlay :=
  l.foldl (fun acc o => insertByTs o acc) []

/-- Timestamp of the first quiz-family overlay of the list, if any: the inner
forward scan of the consecutive-question pass. -/
def findFirstQuizTs : List Overlay → Option Int
  | [] => none
  | o :: rest => if isQuizType o.type then some o.timestamp else findFirstQuizTs rest

/-- Second pass of the graph builder: each overlay whose action is
`next_question` gets its action parameter overwritten with the timestamp of
the first quiz-family overlay strictly after it in the sorted list, when one
exists.  The scan reads only `type` and `timestamp` of later overlays, which
the pass never changes, so the in-place loop equals this pure recursion. -/
def processConsecutive : List Overlay → List Overlay
  | [] => []
  | o :: rest =>
    (if o.nextAction = "next_question" then
      match findFirstQuizTs rest with
      | some t => { o with actionParam := .numP t }
      | none => o
    else o) :: processConsecutive rest

/-- The group index built during the first pass: each parsed overlay with a
nonempty group name appends its id to its group's list, in parse (source-row)
order. -/
def groupsOf (parsed : List Overlay) : String → List String :=
  parsed.foldl
    (fun acc o =>
      if o.groupName ≠ "" then
        fun g => if g = o.groupName then acc g ++ [o.id] else acc g
      else acc)
    (fun _ => [])

/-- The title index built during the first pass: last overlay seen with a
given display title wins. -/
def overlaysByTitleOf (parsed : List Overlay) : String → Option Overlay :=
  parsed.foldl (fun acc o => fun t => if t = o.title then some o else acc t)
    (fun _ => none)

/-- Result record of `getOverlaysForVideo`. -/
structure OverlaysResult where
  overlays : List Overlay
  groups : String → List String
  overlaysByTitle : String → Option Overlay

/-- Embedding of `getOverlaysForVideo`: parse the data rows in source order
(building the group and title indexes incidentally), sort by timestamp, then
run the consecutive-question pass.  `rows` is the table below the header row;
the indexes hold the parse-time records (only the `overlays` list carries the
action-parameter updates of the second pass). -/
def getOverlaysForVideo (rands : Nat → Nat → Nat) (rows : List Row)
    (videoTitle : String) : OverlaysResult :=
  let parsed := parseRows rands rows videoTitle
  { overlays := processConsecutive (sortByTs parsed)
    groups := groupsOf parsed
    overlaysByTitle := overlaysByTitleOf parsed }

/-- A settings value as the web app sees it: a real boolean or a string. -/
inductive SettingVal where
  | bv : Bool → SettingVal
  | sv : String → SettingVal
deriving DecidableEq, Repr

/-- JavaScript `value.toString()` on a settings value: booleans print as the
lowercase words `true` / `false`. -/
def jsValToString : SettingVal → String
  | .bv true => "true"
  | .bv false => "false"
  | .sv s => s

/-- Embedding of `updateAppSettings`: after the delete-all-then-append
sequence the Settings table holds, below the header, one `(name, value)` row
per entry with the stringified value.  The store keeps exactly the strings
appended to it. -/
def updateAppSettings (settings : List (String × SettingVal)) :
    List (String × String) :=
  settings.map (fun p => (p.1, jsValToString p.2))

/-- Embedding of `getAppSettings` over the stored `(name, value)` rows below
the header: exactly the literal strings `TRUE` and `FALSE` deserialize to
booleans, every other value passes through as a string. -/
def getAppSettings (rows : List (String × String)) : List (String × SettingVal) :=
  rows.map (fun p =>
    (p.1,
      if p.2 = "TRUE" then .bv true
      else if p.2 = "FALSE" then .bv false
      else .sv p.2))

/-- The Was-Correct cell of a quiz-attempt row: the sheet may hold a real
boolean or a string; the source accepts `row[5] === true || row[5] === "TRUE"`. -/
inductive CorrectCell where
  | cb : Bool → CorrectCell
  | cs : String → CorrectCell
deriving DecidableEq, Repr

/-- Truth of a Was-Correct cell per the source's test. -/
def correctCellIsTrue : CorrectCell → Bool
  | .cb b => b
  | .cs s => s == "TRUE"

/-- One data row of the Quiz Analytics table.  `timeToAnswer` models
`parseFloat(row[7]) || 0`: the numeric value of the cell, `0` for a
non-numeric cell. -/
structure AnalyticsRow where
  timestamp : Int
  userId : String
  videoTitle : String
  overlayId : String
  quizType : String
  wasCorrect : CorrectCell
  selectedOption : String
  timeToAnswer : ℚ
  sessionId : String

/-- One data row of the User Data table, with the event timestamp in
milliseconds (model of the stored `Date`). -/
structure ViewingRow where
  timestamp : Int
  sessionId : String
  userId : String
  videoTitle : String
  eventType : String

/-- One data row of the User Notes table. -/
structure NoteRow where
  timestamp : Int
  userId : String
  videoTitle : String
  videoTime : Int
  content : String
  sessionId : String

/-- One entry of `quizDetails`. -/
structure QuizDetail where
  overlayId : String
  quizType : String
  wasCorrect : Bool
  selectedOption : String
  timeToAnswer : ℚ
deriving DecidableEq, Repr

/-- The `quizPerformance` block of a report. -/
structure QuizPerformance where
  totalQuestions : Nat
  correctAnswers : Nat
  incorrectAnswers : Nat
  accuracyPercentage : ℚ
  averageTimeToAnswer : ℚ
  quizDetails : List QuizDetail
deriving DecidableEq, Repr

/-- The `viewingStatistics` block of a report. -/
structure ViewingStatistics where
  startTime : Option Int
  endTime : Option Int
  totalTimeSpent : ℚ
  completionPercentage : Nat
  pauseCount : Nat
deriving DecidableEq, Repr

/-- The human-readable summary block. -/
structure Summary where
  title : String
  message : String
  grade : String
  feedback : String
deriving DecidableEq, Repr

/-- A per-session student report. -/
structure Report where
  videoTitle : String
  userId : String
  sessionId : String
  quizPerformance : QuizPerformance
  viewingStatistics : ViewingStatistics
  notesCount : Nat
  summary : Summary

/-- Embedding of `createDefaultReportSummary`. -/
def createDefaultReportSummary : Summary :=
  { title := "Activity Completed"
    message := "You have completed this video activity."
    grade := "N/A"
    feedback := "No quiz data available for this session." }

/-- Accumulator of the quiz-analytics fold of `getStudentReport`. -/
structure QuizAcc where
  totalQuestions : Nat
  correctAnswers : Nat
  incorrectAnswers : Nat
  timeSum : ℚ
  details : List QuizDetail

/-- One step of the quiz-analytics loop: rows of other sessions or videos
are skipped. -/
def quizStep (sessionId videoTitle : String) (st : QuizAcc) (r : AnalyticsRow) :
    QuizAcc :=
  if r.sessionId == sessionId && r.videoTitle == videoTitle then
    let wasCorrect := correctCellIsTrue r.wasCorrect
    { totalQuestions := st.totalQuestions + 1
      correctAnswers := if wasCorrect then st.correctAnswers + 1 else st.correctAnswers
      incorrectAnswers :=
        if wasCorrect then st.incorrectAnswers else st.incorrectAnswers + 1
      timeSum := st.timeSum + r.timeToAnswer
      details := st.details ++
        [⟨r.overlayId, r.quizType, wasCorrect, r.selectedOption, r.timeToAnswer⟩] }
  else st

/-- Accumulator of the viewing-data fold of `getStudentReport`. -/
structure ViewAcc where
  startEvent : Option Int
  endEvent : Option Int
  pauseCount : Nat

/-- One step of the viewing-data loop: earliest `activity_started`, latest
`video_completed`, count of `video_paused`, restricted to the session and
video (`!startEvent` models the null check; stored events are `Date`s, which
are always truthy). -/
def viewStep (sessionId videoTitle : String) (st : ViewAcc) (r : ViewingRow) :
    ViewAcc :=
  if r.sessionId == sessionId && r.videoTitle == videoTitle then
    let st1 :=
      if r.eventType == "activity_started" then
        match st.startEvent with
        | none => { st with startEvent := some r.timestamp }
        | some s =>
          if r.timestamp < s then { st with startEvent := some r.timestamp } else st
      else st
    let st2 :=
      if r.eventType == "video_completed" then
        match st1.endEvent with
        | none => { st1 with endEvent := some r.timestamp }
        | some e =>
          if r.timestamp > e then { st1 with endEvent := some r.timestamp } else st1
      else st1
    if r.eventType == "video_paused" then
      { st2 with pauseCount := st2.pauseCount + 1 }
    else st2
  else st

/-- Render `n10` tenths as a one-decimal string, model of
`accuracy.toFixed(1)` for the nonnegative accuracies arising here. -/
def toFixedOneOfTenths (n10 : Nat) : String :=
  toString (n10 / 10) ++ "." ++ toString (n10 % 10)

/-- Embedding of `generateReportSummary`.  `toFixed(1)` is modelled by
rounding the accuracy to tenths half-up (`round`), which is also the value
the string comparisons `accuracy >= 90` etc. coerce back to. -/
def generateReportSummary (report : Report) : Summary :=
  let base : Summary :=
    { title := "Activity Completed"
      message := "You have completed \"" ++ report.videoTitle ++ "\"."
      grade := "N/A"
      feedback := "" }
  let withQuiz :=
    if report.quizPerformance.totalQuestions > 0 then
      let n10 : ℤ := round (report.quizPerformance.accuracyPercentage * 10)
      let accuracy : ℚ := (n10 : ℚ) / 10
      let feedback :=
        if accuracy ≥ 90 then
          "Excellent work! You demonstrated a strong understanding of the material."
        else if accuracy ≥ 75 then
          "Good job! You have a solid grasp of most concepts."
        else if accuracy ≥ 60 then
          "You're on the right track, but may want to review the material again to strengthen your understanding."
        else
          "It looks like you might need to revisit this content. Consider rewatching the video and paying close attention to the key points."
      { base with
          grade := toFixedOneOfTenths n10.toNat ++ "%"
          feedback := feedback
          message := base.message ++ " You answered " ++
            toString report.quizPerformance.correctAnswers ++ " out of " ++
            toString report.quizPerformance.totalQuestions ++
            " questions correctly." }
    else
      { base with feedback := "No quiz data available for this session." }
  if report.notesCount > 0 then
    { withQuiz with
        message := withQuiz.message ++ " You took " ++ toString report.notesCount ++
          " note" ++ (if report.notesCount ≠ 1 then "s" else "") ++
          " during the video." }
  else withQuiz

/-- Embedding of `getStudentReport` over the three data-row lists (each the
table below its header row; the source's missing-sheet branches are outside
this snapshot model). -/
def getStudentReport (analytics : List AnalyticsRow) (viewing : List ViewingRow)
    (notes : List NoteRow) (videoTitle sessionId userId : String) : Report :=
  let q := analytics.foldl (quizStep sessionId videoTitle) ⟨0, 0, 0, 0, []⟩
  let quizPerformance : QuizPerformance :=
    if q.totalQuestions > 0 then
      { totalQuestions := q.totalQuestions
        correctAnswers := q.correctAnswers
        incorrectAnswers := q.incorrectAnswers
        accuracyPercentage := ((q.correctAnswers : ℚ) / (q.totalQuestions : ℚ)) * 100
        averageTimeToAnswer := q.timeSum / (q.totalQuestions : ℚ)
        quizDetails := q.details }
    else
      { totalQuestions := q.totalQuestions
        correctAnswers := q.correctAnswers
        incorrectAnswers := q.incorrectAnswers
        accuracyPercentage := 0
        averageTimeToAnswer := 0
        quizDetails := q.details }
  let v := viewing.foldl (viewStep sessionId videoTitle) ⟨none, none, 0⟩
  let viewingStatistics : ViewingStatistics :=
    match v.startEvent, v.endEvent with
    | some s, some e =>
      { startTime := some s
        endTime := some e
        totalTimeSpent := ((e - s : ℤ) : ℚ) / 1000
        completionPercentage := 100
        pauseCount := v.pauseCount }
    | _, _ =>
      { startTime := none
        endTime := none
        totalTimeSpent := 0
        completionPercentage := 0
        pauseCount := v.pauseCount }
  let notesCount := notes.foldl
    (fun n r =>
      if r.sessionId == sessionId && r.videoTitle == videoTitle then n + 1 else n) 0
  let rep : Report :=
    { videoTitle := videoTitle
      userId := userId
      sessionId := sessionId
      quizPerformance := quizPerformance
      viewingStatistics := viewingStatistics
      notesCount := notesCount
      summary := createDefaultReportSummary }
  { rep with summary := generateReportSummary rep }

/-- The parameter text as the spec describes it after amendment: the text
after the first `:` up to (excluding) the next `:`. -/
def specParamBetweenColons (s : String) : String :=
  String.mk (((s.toList.dropWhile (fun c => c ≠ ':')).drop 1).takeWhile
    (fun c => c ≠ ':'))

/-- The directive grammar as the spec states it, with the amended parameter
clause: empty input or an unrecognized string yields `continue` with no
parameter; the three bare words yield themselves; an `if_correct:` or
`if_incorrect:` prefix yields the matched action with the text between the
first and second colon, trimmed, as parameter. -/
def specNextAction (s : String) : NextActionData :=
  if s = "" then ⟨"continue", .nullP⟩
  else if s = "continue" then ⟨"continue", .nullP⟩
  else if s = "next_question" then ⟨"next_question", .nullP⟩
  else if s = "end" then ⟨"end", .nullP⟩
  else if jsStartsWith s "if_correct:" then
    ⟨"if_correct", .strP (jsTrim (specParamBetweenColons s))⟩
  else if jsStartsWith s "if_incorrect:" then
    ⟨"if_incorrect", .strP (jsTrim (specParamBetweenColons s))⟩
  else ⟨"continue", .nullP⟩

/-- A data row with the quiz-answer and multimedia cells empty. -/
def mkRow (vt ts ti co ty na ca group : String) : Row :=
  ⟨vt, ts, ti, co, ty, na, ca, "", "", "", group, "", "", "", "", "", ""⟩

/-- Degenerate randomness source (always 0) used for the concrete inputs of
the counterexamples and witnesses. -/
def rands0 : Nat → Nat → Nat := fun _ _ => 0

theorem get_cons_set_perm (t : List α) (m : Nat) (a : α) (h : m < t.length) :
    (t.get ⟨m, h⟩ :: t.set m a).Perm (a :: t) := by
  induction t generalizing m with
  | nil => simp at h
  | cons b s ih =>
    cases m with
    | zero => exact List.Perm.swap a b s
    | succ k =>
      have h' : k < s.length := Nat.lt_of_succ_lt_succ h
      exact ((List.Perm.swap b (s.get ⟨k, h'⟩) (s.set k a)).trans
        (List.Perm.cons b (ih k h'))).trans (List.Perm.swap a b s)

theorem set_set_perm (l : List α) (i j : Nat) (hi : i < l.length)
    (hj : j < l.length) :
    ((l.set i (l.get ⟨j, hj⟩)).set j (l.get ⟨i, hi⟩)).Perm l := by
  induction l generalizing i j with
  | nil => simp at hi
  | cons a t ih =>
    match i, j with
    | 0, 0 => simp
    | 0, m + 1 =>
      have hm : m < t.length := Nat.lt_of_succ_lt_succ hj
      exact get_cons_set_perm t m a hm
    | k + 1, 0 =>
      have hk : k < t.length := Nat.lt_of_succ_lt_succ hi
      exact get_cons_set_perm t k a hk
    | k + 1, m + 1 =>
      have hk : k < t.length := Nat.lt_of_succ_lt_succ hi
      have hm : m < t.length := Nat.lt_of_succ_lt_succ hj
      exact List.Perm.cons a (ih k m hk hm)

theorem swapIdx_perm (l : List α) (i j : Nat) : (swapIdx l i j).Perm l := by
  by_cases h : i < l.length ∧ j < l.length
  · simpa only [swapIdx, dif_pos h] using set_set_perm l i j h.1 h.2
  · simp only [swapIdx, dif_neg h]
    exact List.Perm.refl l

theorem fyLoop_perm (rand : Nat → Nat) (n : Nat) (l : List α) :
    (fyLoop rand n l).Perm l := by
  induction n generalizing l with
  | zero => exact List.Perm.refl l
  | succ k ih =>
    exact (ih (swapIdx l (k + 1) (rand (k + 1) % (k + 2)))).trans
      (swapIdx_perm l (k + 1) (rand (k + 1) % (k + 2)))

theorem shuffleArray_perm (rand : Nat → Nat) (l : List α) :
    (shuffleArray rand l).Perm l :=
  fyLoop_perm rand (l.length - 1) l

/-- C9: for every randomness source and every option list, `shuffleArray`
returns a permutation of its input (hence the same length and the same
multiset of text/correctness/feedback records); the input itself, being a
value in this pure model of the copying shuffler, is unchanged. -/
theorem c9_shuffle_is_permutation (rand : Nat → Nat) (l : List AnswerOption) :
    (shuffleArray rand l).Perm l ∧ (shuffleArray rand l).length = l.length :=
  ⟨shuffleArray_perm rand l, (shuffleArray_perm rand l).length_eq⟩

/-- C1 (code-bug evidence): storing the boolean setting `Foo: true` through
`updateAppSettings` and reading it back with `getAppSettings` yields the
string `"true"`, not the boolean `true`: `toString()` serializes booleans in
lowercase while the deserializer only recognizes the uppercase literals
`TRUE`/`FALSE` that the bootstrap defaults use. -/
theorem c1_settings_roundtrip_bug :
    getAppSettings (updateAppSettings [("Foo", .bv true)]) = [("Foo", .sv "true")] ∧
      SettingVal.sv "true" ≠ SettingVal.bv true := by
  decide

/-- C2 (counterexample): on `"if_correct:1:2"` the parser returns the piece
between the first and second colon (`"1"`), not everything after the first
colon (`"1:2"`) as the claim states. -/
theorem c2_counterexample :
    parseNextAction "if_correct:1:2" = ⟨"if_correct", .strP "1"⟩ ∧
      parseNextAction "if_correct:1:2" ≠ ⟨"if_correct", .strP "1:2"⟩ := by
  decide

theorem jsSplitChars_ne_nil (sep : Char) (cs : List Char) :
    jsSplitChars sep cs ≠ [] := by
  induction cs with
  | nil => simp [jsSplitChars]
  | cons c cs ih =>
    by_cases h : c = sep
    · simp [jsSplitChars, h]
    · cases hm : jsSplitChars sep cs with
      | nil => exact absurd hm ih
      | cons p ps => simp [jsSplitChars, h, hm]

theorem jsSplitChars_getD_zero (sep : Char) (cs : List Char) :
    (jsSplitChars sep cs).getD 0 [] = cs.takeWhile (fun c => c ≠ sep) := by
  induction cs with
  | nil => rfl
  | cons c cs ih =>
    by_cases h : c = sep
    · subst h
      simp [jsSplitChars, List.takeWhile_cons]
    · cases hm : jsSplitChars sep cs with
      | nil => exact absurd hm (jsSplitChars_ne_nil sep cs)
      | cons p ps =>
        rw [hm] at ih
        simp [jsSplitChars, h, hm, List.takeWhile_cons]
        simpa using ih

theorem jsSplitChars_getD_one (sep : Char) (cs : List Char) :
    (jsSplitChars sep cs).getD 1 [] =
      ((cs.dropWhile (fun c => c ≠ sep)).drop 1).takeWhile (fun c => c ≠ sep) := by
  induction cs with
  | nil => rfl
  | cons c cs ih =>
    by_cases h : c = sep
    · subst h
      simp [jsSplitChars, List.dropWhile_cons]
      simpa using jsSplitChars_getD_zero c cs
    · cases hm : jsSplitChars sep cs with
      | nil => exact absurd hm (jsSplitChars_ne_nil sep cs)
      | cons p ps =>
        rw [hm] at ih
        simp [jsSplitChars, h, hm, List.dropWhile_cons]
        simpa using ih

theorem getD_map_mk (l : List (List Char)) (n : Nat) :
    (l.map String.mk).getD n "" = String.mk (l.getD n []) := by
  induction l generalizing n with
  | nil => cases n <;> rfl
  | cons p ps ih => cases n <;> simp [ih]

theorem jsSplit_getD_one (s : String) :
    (jsSplit s ':').getD 1 "" = specParamBetweenColons s := by
  rw [jsSplit, getD_map_mk, jsSplitChars_getD_one, specParamBetweenColons]

/-- C2 (amended): the parser implements the directive grammar with the
parameter clause amended to "the text between the first and second `:`,
trimmed": empty input and unrecognized strings yield `continue` with no
parameter, the three bare action words yield themselves, and the
`if_correct:`/`if_incorrect:` prefixes yield the matched action with that
parameter. -/
theorem c2_directive_grammar_amended (s : String) :
    parseNextAction s = specNextAction s := by
  by_cases h0 : s = ""
  · subst h0; decide
  by_cases h1 : s = "continue"
  · subst h1; decide
  by_cases h2 : s = "next_question"
  · subst h2; decide
  by_cases h3 : s = "end"
  · subst h3; decide
  have hc : (["continue", "next_question", "end"].contains s) = false := by
    simp [List.contains_cons, h1, h2, h3]
  have hp : ((jsSplit s ':')[1]?.getD "") = specParamBetweenColons s := by
    rw [← List.getD_eq_getElem?_getD]
    exact jsSplit_getD_one s
  simp [parseNextAction, specNextAction, h0, h1, h2, h3, hc, hp]

theorem processConsecutive_get (l : List Overlay) (i : Nat) (o : Overlay)
    (h : l[i]? = some o) :
    (processConsecutive l)[i]? = some
      (if o.nextAction = "next_question" then
        match findFirstQuizTs (l.drop (i + 1)) with
        | some t => { o with actionParam := .numP t }
        | none => o
      else o) := by
  induction l generalizing i with
  | nil => simp at h
  | cons x rest ih =>
    cases i with
    | zero =>
      simp only [List.getElem?_cons_zero, Option.some.injEq] at h
      subst h
      simp [processConsecutive]
    | succ k =>
      simp only [List.getElem?_cons_succ] at h
      simpa [processConsecutive] using ih k h

/-- C3: in the graph builder's output, the overlay at each position of the
sorted list whose resolved action is `next_question` carries, as action
parameter, the timestamp of the first strictly-later overlay of the sorted
list whose type is quiz-family; when no such later overlay exists its action
parameter stays as the Action Resolver produced it; other overlays are
unchanged. -/
theorem c3_next_question_forward_link (rands : Nat → Nat → Nat) (rows : List Row)
    (videoTitle : String) (i : Nat) (o : Overlay)
    (h : (sortByTs (parseRows rands rows videoTitle))[i]? = some o) :
    (getOverlaysForVideo rands rows videoTitle).overlays[i]? = some
      (if o.nextAction = "next_question" then
        match findFirstQuizTs ((sortByTs (parseRows rands rows videoTitle)).drop (i + 1)) with
        | some t => { o with actionParam := .numP t }
        | none => o
      else o) :=
  processConsecutive_get (sortByTs (parseRows rands rows videoTitle)) i o h

/-- Rows of the spec's consecutive-question example: a `next_question`
overlay at timestamp 5 followed by quiz overlays at timestamps 10 and 20. -/
def exRowsNQ : List Row :=
  [mkRow "V" "5" "a" "c" "info" "next_question" "" "",
   mkRow "V" "10" "b" "c" "quiz" "" "A" "",
   mkRow "V" "20" "d" "c" "quiz" "" "A" ""]

/-- The parsed overlay of the first example row. -/
def exOverlayNQ : Overlay :=
  ⟨"overlay-1", 5, "a", "c", "info", "next_question", .nullP, [], "", "", "", "", none⟩

/-- Witness for C3: on the spec's example the `next_question` overlay at
timestamp 5 resolves its action parameter to 10, the nearest forward quiz. -/
theorem c3_witness :
    (sortByTs (parseRows rands0 exRowsNQ "V"))[0]? = some exOverlayNQ ∧
      (getOverlaysForVideo rands0 exRowsNQ "V").overlays[0]? =
        some { exOverlayNQ with actionParam := .numP 10 } := by
  have h : (sortByTs (parseRows rands0 exRowsNQ "V"))[0]? = some exOverlayNQ := by
    decide
  exact ⟨h,
    (c3_next_question_forward_link rands0 exRowsNQ "V" 0 exOverlayNQ h).trans
      (by decide)⟩

theorem mem_insertByTs {o y : Overlay} {l : List Overlay} :
    y ∈ insertByTs o l ↔ y = o ∨ y ∈ l := by
  induction l with
  | nil => simp [insertByTs]
  | cons x xs ih =>
    by_cases h : x.timestamp ≤ o.timestamp
    · simp only [insertByTs, if_pos h, List.mem_cons, ih]
      tauto
    · simp only [insertByTs, if_neg h, List.mem_cons]

theorem pairwise_insertByTs (o : Overlay) (l : List Overlay)
    (hl : l.Pairwise (fun a b => a.timestamp ≤ b.timestamp)) :
    (insertByTs o l).Pairwise (fun a b => a.timestamp ≤ b.timestamp) := by
  induction l with
  | nil => simp [insertByTs]
  | cons x xs ih =>
    rcases List.pairwise_cons.mp hl with ⟨hx, hxs⟩
    by_cases h : x.timestamp ≤ o.timestamp
    · rw [insertByTs, if_pos h]
      refine List.pairwise_cons.mpr ⟨?_, ih hxs⟩
      intro y hy
      rcases mem_insertByTs.mp hy with rfl | hy'
      · exact h
      · exact hx y hy'
    · rw [insertByTs, if_neg h]
      refine List.pairwise_cons.mpr ⟨?_, hl⟩
      intro y hy
      rcases List.mem_cons.mp hy with rfl | hy'
      · omega
      · have := hx y hy'
        omega

theorem sortByTs_pairwise (l : List Overlay) :
    (sortByTs l).Pairwise (fun a b => a.timestamp ≤ b.timestamp) := by
  suffices h : ∀ acc : List Overlay,
      acc.Pairwise (fun a b => a.timestamp ≤ b.timestamp) →
      (l.foldl (fun acc o => insertByTs o acc) acc).Pairwise
        (fun a b => a.timestamp ≤ b.timestamp) by
    simpa [sortByTs] using h [] (by simp)
  induction l with
  | nil => intro acc hacc; simpa using hacc
  | cons x xs ih => intro acc hacc; exact ih _ (pairwise_insertByTs x acc hacc)

theorem filter_insertByTs_ne (o : Overlay) (l : List Overlay) (t : Int)
    (h : (o.timestamp == t) = false) :
    (insertByTs o l).filter (fun x => x.timestamp == t) =
      l.filter (fun x => x.timestamp == t) := by
  induction l with
  | nil => simp [insertByTs, List.filter, h]
  | cons x xs ih =>
    by_cases hle : x.timestamp ≤ o.timestamp
    · simp only [insertByTs, if_pos hle, List.filter_cons, ih]
    · simp [insertByTs, if_neg hle, List.filter_cons, h]

theorem filter_insertByTs_eq (o : Overlay) (l : List Overlay) (t : Int)
    (ht : (o.timestamp == t) = true)
    (hl : l.Pairwise (fun a b => a.timestamp ≤ b.timestamp)) :
    (insertByTs o l).filter (fun x => x.timestamp == t) =
      l.filter (fun x => x.timestamp == t) ++ [o] := by
  induction l with
  | nil => simp [insertByTs, List.filter, ht]
  | cons x xs ih =>
    rcases List.pairwise_cons.mp hl with ⟨hx, hxs⟩
    by_cases hle : x.timestamp ≤ o.timestamp
    · by_cases hpx : (x.timestamp == t) = true
      · simp [insertByTs, if_pos hle, List.filter_cons, hpx, ih hxs]
      · simp [insertByTs, if_pos hle, List.filter_cons, hpx, ih hxs]
    · have hot : o.timestamp = t := by simpa using ht
      have hnil : (x :: xs).filter (fun x => x.timestamp == t) = [] := by
        rw [List.filter_eq_nil_iff]
        intro a ha
        rcases List.mem_cons.mp ha with rfl | ha'
        · simp only [beq_iff_eq]
          omega
        · have := hx a ha'
          simp only [beq_iff_eq]
          omega
      simp [insertByTs, if_neg hle, List.filter_cons, ht, hnil]

theorem sortAcc_filter (t : Int) (l : List Overlay) : ∀ acc : List Overlay,
    acc.Pairwise (fun a b => a.timestamp ≤ b.timestamp) →
    ((l.foldl (fun acc o => insertByTs o acc) acc).filter
      (fun x => x.timestamp == t)) =
      acc.filter (fun x => x.timestamp == t) ++
        l.filter (fun x => x.timestamp == t) := by
  induction l with
  | nil => intro acc hacc; simp
  | cons x xs ih =>
    intro acc hacc
    have hacc' := pairwise_insertByTs x acc hacc
    rw [List.foldl_cons, ih _ hacc']
    by_cases hx : (x.timestamp == t) = true
    · rw [filter_insertByTs_eq x acc t hx hacc]
      simp [List.filter_cons, hx]
    · rw [filter_insertByTs_ne x acc t (by simpa using hx)]
      simp [List.filter_cons, hx]

theorem sortByTs_filter (l : List Overlay) (t : Int) :
    (sortByTs l).filter (fun x => x.timestamp == t) =
      l.filter (fun x => x.timestamp == t) := by
  simpa [sortByTs] using sortAcc_filter t l [] (by simp)

/-- Identity-relevant projection of an overlay: its id and timestamp, the
two fields the consecutive-question pass never changes. -/
def overlayKey (o : Overlay) : String × Int := (o.id, o.timestamp)

theorem processConsecutive_map_key (l : List Overlay) :
    (processConsecutive l).map overlayKey = l.map overlayKey := by
  induction l with
  | nil => rfl
  | cons x rest ih =>
    simp only [processConsecutive, List.map_cons, ih]
    congr 1
    by_cases h : x.nextAction = "next_question"
    · simp only [if_pos h]
      cases findFirstQuizTs rest <;> simp [overlayKey]
    · simp [if_neg h]

theorem filter_map_id_of_key_eq (t : Int) (l₁ : List Overlay) :
    ∀ l₂ : List Overlay, l₁.map overlayKey = l₂.map overlayKey →
    (l₁.filter (fun o => o.timestamp == t)).map Overlay.id =
      (l₂.filter (fun o => o.timestamp == t)).map Overlay.id := by
  induction l₁ with
  | nil =>
    intro l₂ h
    cases l₂ with
    | nil => simp
    | cons b bs => simp at h
  | cons a as ih =>
    intro l₂ h
    cases l₂ with
    | nil => simp at h
    | cons b bs =>
      simp only [List.map_cons, List.cons.injEq] at h
      obtain ⟨hk, hrest⟩ := h
      have hid : a.id = b.id := congrArg Prod.fst hk
      have hts : a.timestamp = b.timestamp := congrArg Prod.snd hk
      by_cases hp : (a.timestamp == t) = true
      · have hp' : (b.timestamp == t) = true := by rw [← hts]; exact hp
        simp [List.filter_cons, hp, hp', hid, ih bs hrest]
      · have hp' : (b.timestamp == t) = false := by rw [← hts]; simpa using hp
        simp [List.filter_cons, hp, hp', ih bs hrest]

/-- Rows of the spec's sorting example, at unsorted timestamps
[30, 5, 10, 20]. -/
def exRowsSort : List Row :=
  [mkRow "V" "30" "a" "c" "" "" "" "", mkRow "V" "5" "b" "c" "" "" "" "",
   mkRow "V" "10" "d" "c" "" "" "" "", mkRow "V" "20" "e" "c" "" "" "" ""]

/-- C4: the graph builder's output list is sorted ascending by timestamp,
overlays with equal timestamps keep their source-row (parse) order, and on
the spec's example rows at unsorted timestamps [30, 5, 10, 20] the output
timestamps are [5, 10, 20, 30]. -/
theorem c4_sorted_stable (rands : Nat → Nat → Nat) (rows : List Row)
    (videoTitle : String) :
    ((getOverlaysForVideo rands rows videoTitle).overlays.Pairwise
      (fun a b => a.timestamp ≤ b.timestamp)) ∧
    (∀ t : Int,
      (((getOverlaysForVideo rands rows videoTitle).overlays.filter
        (fun o => o.timestamp == t)).map Overlay.id) =
      (((parseRows rands rows videoTitle).filter
        (fun o => o.timestamp == t)).map Overlay.id)) ∧
    ((getOverlaysForVideo rands0 exRowsSort "V").overlays.map Overlay.timestamp)
      = [5, 10, 20, 30] := by
  refine ⟨?_, ?_, by decide⟩
  · have hkey := processConsecutive_map_key (sortByTs (parseRows rands rows videoTitle))
    have hsorted := sortByTs_pairwise (parseRows rands rows videoTitle)
    have h1 : ((sortByTs (parseRows rands rows videoTitle)).map overlayKey).Pairwise
        (fun a b => a.2 ≤ b.2) :=
      List.pairwise_map.mpr (by simpa [overlayKey] using hsorted)
    rw [← hkey] at h1
    have h2 := List.pairwise_map.mp h1
    simpa [overlayKey] using h2
  · intro t
    have h3 := filter_map_id_of_key_eq t _ _
      (processConsecutive_map_key (sortByTs (parseRows rands rows videoTitle)))
    exact h3.trans
      (congrArg (List.map Overlay.id) (sortByTs_filter (parseRows rands rows videoTitle) t))

theorem groupsOf_fold_spec (g : String) (hg : g ≠ "") (parsed : List Overlay) :
    ∀ acc : String → List String,
    (parsed.foldl
      (fun acc o =>
        if o.groupName ≠ "" then
          fun g' => if g' = o.groupName then acc g' ++ [o.id] else acc g'
        else acc)
      acc) g =
      acc g ++ ((parsed.filter (fun o => o.groupName == g)).map Overlay.id) := by
  induction parsed with
  | nil => intro acc; simp
  | cons o rest ih =>
    intro acc
    rw [List.foldl_cons, ih]
    by_cases h1 : o.groupName = ""
    · have hfg : (o.groupName == g) = false := by
        rw [h1]
        simpa using fun h => hg h.symm
      have hne : ¬("" = g) := fun h => hg h.symm
      simp [h1, List.filter_cons, hfg, hne]
    · by_cases h2 : g = o.groupName
      · have hfg : (o.groupName == g) = true := by simpa using h2.symm
        simp [h1, h2, List.filter_cons, hfg]
      · have hfg : (o.groupName == g) = false := by
          simpa using fun h => h2 h.symm
        simp [h1, h2, List.filter_cons, hfg]

/-- C6 (amended): each group of the graph builder's index lists the ids of
its member overlays in source-row (parse) order — the index is built during
the first pass, before the timestamp sort, so the order is ascending in
timestamps only when the rows were already sorted. -/
theorem c6_groups_in_source_row_order (rands : Nat → Nat → Nat)
    (rows : List Row) (videoTitle g : String) (hg : g ≠ "") :
    (getOverlaysForVideo rands rows videoTitle).groups g =
      ((parseRows rands rows videoTitle).filter
        (fun o => o.groupName == g)).map Overlay.id := by
  have h := groupsOf_fold_spec g hg (parseRows rands rows videoTitle) (fun _ => [])
  simpa [getOverlaysForVideo, groupsOf] using h

/-- Rows whose shared group "g" has members at descending timestamps
30 and 5. -/
def exRowsGroup : List Row :=
  [mkRow "V" "30" "a" "c" "" "" "" "g", mkRow "V" "5" "b" "c" "" "" "" "g"]

/-- Counterexample for C6: on two grouped rows at timestamps 30 then 5, the
group lists [overlay-1, overlay-2], whose timestamps in listed order are
[30, 5] — not ascending by timestamp as the claim states. -/
theorem c6_counterexample :
    ((getOverlaysForVideo rands0 exRowsGroup "V").groups "g") =
      ["overlay-1", "overlay-2"] ∧
    (((getOverlaysForVideo rands0 exRowsGroup "V").groups "g").map
      (fun i => (((getOverlaysForVideo rands0 exRowsGroup "V").overlays.find?
        (fun o => o.id == i)).map Overlay.timestamp).getD 0)) = [30, 5] ∧
    ¬ (((getOverlaysForVideo rands0 exRowsGroup "V").groups "g").map
      (fun i => (((getOverlaysForVideo rands0 exRowsGroup "V").overlays.find?
        (fun o => o.id == i)).map Overlay.timestamp).getD 0)).Pairwise
        (fun a b => a ≤ b) := by
  decide

/-- Witness for C6's amended theorem at a concrete group and row set. -/
theorem c6_witness :
    "g" ≠ "" ∧
      (getOverlaysForVideo rands0 exRowsGroup "V").groups "g" =
        ((parseRows rands0 exRowsGroup "V").filter
          (fun o => o.groupName == "g")).map Overlay.id :=
  ⟨by decide, c6_groups_in_source_row_order rands0 exRowsGroup "V" "g" (by decide)⟩

/-- C7 (amended): every accepted row's overlay type is the lower-cased type
cell, with `"info"` only as the default for an absent (empty) cell;
unrecognized nonempty types pass through lower-cased instead of becoming
`"info"`. -/
theorem c7_type_lowercased (rand : Nat → Nat) (i : Nat) (vt : String)
    (row : Row) (o : Overlay) (h : parseRow rand i vt row = some o) :
    o.type = if row.typeCell = "" then "info" else jsToLower row.typeCell := by
  rw [parseRow] at h
  by_cases hok : rowOk vt row = true
  · rw [if_pos hok] at h
    have ho : o = buildOverlay rand i row := (Option.some.injEq _ _).mp h.symm
    subst ho
    rfl
  · rw [if_neg hok] at h
    exact absurd h (by simp)

/-- The overlay parsed from the unrecognized-type example row. -/
def exOverlayBanana : Overlay :=
  ⟨"overlay-1", 5, "a", "c", "banana", "continue", .nullP, [], "", "", "", "", none⟩

/-- Witness for C7's amended theorem at a concrete accepted row. -/
theorem c7_witness :
    parseRow (rands0 1) 1 "V" (mkRow "V" "5" "a" "c" "Banana" "" "" "") =
      some exOverlayBanana ∧
    exOverlayBanana.type =
      (if (mkRow "V" "5" "a" "c" "Banana" "" "" "").typeCell = "" then "info"
       else jsToLower (mkRow "V" "5" "a" "c" "Banana" "" "" "").typeCell) := by
  have h : parseRow (rands0 1) 1 "V" (mkRow "V" "5" "a" "c" "Banana" "" "" "") =
      some exOverlayBanana := by decide
  exact ⟨h, c7_type_lowercased (rands0 1) 1 "V" _ exOverlayBanana h⟩

/-- Counterexample for C7: a row with the unrecognized type `Banana` parses
to an overlay of type `"banana"`, not `"info"` as the claim states. -/
theorem c7_counterexample :
    ((parseRow (rands0 1) 1 "V" (mkRow "V" "5" "a" "c" "Banana" "" "" "")).map
      Overlay.type) = some "banana" ∧
    ((parseRow (rands0 1) 1 "V" (mkRow "V" "5" "a" "c" "Banana" "" "" "")).map
      Overlay.type) ≠ some "info" := by
  decide

/-- C10: every accepted row whose type is exactly `matching` yields an
overlay with an empty options list, whatever its answer cells hold: the
option-building branch requires the type to contain `quiz` or `true_false`. -/
theorem c10_matching_has_no_options (rand : Nat → Nat) (i : Nat) (vt : String)
    (row : Row) (o : Overlay) (h : parseRow rand i vt row = some o)
    (hm : jsToLower row.typeCell = "matching") :
    o.options = [] := by
  rw [parseRow] at h
  by_cases hok : rowOk vt row = true
  · rw [if_pos hok] at h
    have ho : o = buildOverlay rand i row := (Option.some.injEq _ _).mp h.symm
    subst ho
    by_cases he : row.typeCell = ""
    · rw [he] at hm
      exact absurd hm (by decide)
    · show optionsOf rand (if row.typeCell = "" then "info" else jsToLower row.typeCell) row = []
      rw [if_neg he, hm, optionsOf]
      have : isQuizType "matching" = false := by decide
      simp [this]
  · rw [if_neg hok] at h
    exact absurd h (by simp)

/-- The overlay parsed from the matching-type example row. -/
def exOverlayMatching : Overlay :=
  ⟨"overlay-1", 5, "a", "c", "matching", "continue", .nullP, [], "", "", "", "", none⟩

/-- Witness for C10 at a concrete matching row with a nonempty
correct-answer cell. -/
theorem c10_witness :
    parseRow (rands0 1) 1 "V" (mkRow "V" "5" "a" "c" "matching" "" "X" "") =
      some exOverlayMatching ∧
    jsToLower (mkRow "V" "5" "a" "c" "matching" "" "X" "").typeCell = "matching" ∧
    exOverlayMatching.options = [] := by
  have h : parseRow (rands0 1) 1 "V" (mkRow "V" "5" "a" "c" "matching" "" "X" "") =
      some exOverlayMatching := by decide
  have hm : jsToLower (mkRow "V" "5" "a" "c" "matching" "" "X" "").typeCell =
      "matching" := by decide
  exact ⟨h, hm, c10_matching_has_no_options (rands0 1) 1 "V" _ exOverlayMatching h hm⟩

theorem correctOptionsOf_eq (pieces : List String) (cf : String) :
    correctOptionsOf pieces cf =
      ((pieces.map jsTrim).filter (fun t => t != "")).map
        (fun t => ⟨t, true, jsOr cf "Correct!"⟩) := by
  suffices h : ∀ acc : List AnswerOption,
      pieces.foldl
        (fun acc a =>
          if jsTrim a ≠ "" then acc ++ [⟨jsTrim a, true, jsOr cf "Correct!"⟩]
          else acc)
        acc =
        acc ++ ((pieces.map jsTrim).filter (fun t => t != "")).map
          (fun t => ⟨t, true, jsOr cf "Correct!"⟩) by
    simpa [correctOptionsOf] using h []
  induction pieces with
  | nil => intro acc; simp
  | cons a rest ih =>
    intro acc
    rw [List.foldl_cons]
    by_cases h : jsTrim a = ""
    · rw [if_neg (not_not_intro h), ih]
      simp [List.filter_cons, h]
    · rw [if_pos h, ih]
      simp [List.filter_cons, h]

/-- C5: an accepted `true_false` row whose nonempty correct-answer cell
yields exactly one trimmed piece, case-insensitively equal to `TRUE`, and
whose incorrect-answer cells are blank, parses to an overlay whose options
are, as a multiset, exactly the original TRUE option marked correct and a
synthesized FALSE option marked incorrect carrying the incorrect-feedback
fallback. -/
theorem c5_true_false_synthesis (rand : Nat → Nat) (i : Nat) (vt : String)
    (row : Row) (s : String)
    (hok : rowOk vt row = true)
    (htf : jsToLower row.typeCell = "true_false")
    (hca : row.correctAnswer ≠ "")
    (hs : ((jsSplit row.correctAnswer '|').map jsTrim).filter (fun t => t != "") = [s])
    (hsu : jsToUpper s = "TRUE")
    (h1 : jsTrim row.incorrect1 = "")
    (h2 : jsTrim row.incorrect2 = "")
    (h3 : jsTrim row.incorrect3 = "") :
    ∃ o, parseRow rand i vt row = some o ∧
      o.options.Perm
        [⟨s, true, jsOr row.correctFeedbackCell "Correct!"⟩,
         ⟨"FALSE", false, jsOr row.incorrectFeedbackCell "Incorrect."⟩] := by
  refine ⟨buildOverlay rand i row, by rw [parseRow, if_pos hok], ?_⟩
  have he : row.typeCell ≠ "" := by
    intro h
    rw [h] at htf
    exact absurd htf (by decide)
  show (optionsOf rand
    (if row.typeCell = "" then "info" else jsToLower row.typeCell) row).Perm _
  rw [if_neg he, htf, optionsOf]
  have hq : isQuizType "true_false" = true := by decide
  have hca' : (row.correctAnswer != "") = true := by simpa using hca
  rw [correctOptionsOf_eq, hs]
  have hi1 : incorrectOptionOf row.incorrect1 row.incorrectFeedbackCell = [] := by
    rw [incorrectOptionOf]
    simp [h1]
  have hi2 : incorrectOptionOf row.incorrect2 row.incorrectFeedbackCell = [] := by
    rw [incorrectOptionOf]
    simp [h2]
  have hi3 : incorrectOptionOf row.incorrect3 row.incorrectFeedbackCell = [] := by
    rw [incorrectOptionOf]
    simp [h3]
  rw [hi1, hi2, hi3]
  have hT : (jsToUpper s == "TRUE") = true := by simpa using hsu
  have hF : (jsToUpper s == "FALSE") = false := by
    rw [hsu]
    decide
  simp only [hq, hca', Bool.and_self, if_true, List.append_nil, List.map_cons,
    List.map_nil, ensureTrueFalse, List.any_cons, List.any_nil, hT, hF,
    Bool.or_false, if_pos rfl]
  simp only [if_true, if_false, Bool.false_eq_true, List.nil_append]
  exact shuffleArray_perm rand _

/-- The true/false example row: type `true_false`, correct answer `TRUE`,
no incorrect answers. -/
def exRowTF : Row := mkRow "V" "5" "a" "c" "true_false" "" "TRUE" ""

/-- Witness for C5 at the example row: the parsed options are, as a
multiset, the TRUE option (correct) and the synthesized FALSE option
(incorrect). -/
theorem c5_witness :
    ∃ o, parseRow (rands0 1) 1 "V" exRowTF = some o ∧
      o.options.Perm
        [⟨"TRUE", true, jsOr exRowTF.correctFeedbackCell "Correct!"⟩,
         ⟨"FALSE", false, jsOr exRowTF.incorrectFeedbackCell "Incorrect."⟩] :=
  c5_true_false_synthesis (rands0 1) 1 "V" exRowTF "TRUE" (by decide) (by decide)
    (by decide) (by decide) (by decide) (by decide) (by decide) (by decide)

theorem quizFold_nil (sessionId videoTitle : String) (l : List AnalyticsRow)
    (h : l.filter (fun r => r.sessionId == sessionId && r.videoTitle == videoTitle)
      = []) :
    ∀ init : QuizAcc, l.foldl (quizStep sessionId videoTitle) init = init := by
  induction l with
  | nil => intro init; rfl
  | cons a as ih =>
    rw [List.filter_cons] at h
    by_cases hp : (a.sessionId == sessionId && a.videoTitle == videoTitle) = true
    · rw [if_pos hp] at h
      exact absurd h (by simp)
    · rw [if_neg hp] at h
      intro init
      rw [List.foldl_cons]
      have hstep : quizStep sessionId videoTitle init a = init := by
        rw [quizStep, if_neg hp]
      rw [hstep]
      exact ih h init

/-- C8: when no quiz-attempt row matches the session and video, the student
report has zero total questions, accuracy percentage 0 (the guarded division
is never taken), and the "no quiz data" feedback string. -/
theorem c8_zero_attempts_report (analytics : List AnalyticsRow)
    (viewing : List ViewingRow) (notes : List NoteRow)
    (videoTitle sessionId userId : String)
    (h : analytics.filter
      (fun r => r.sessionId == sessionId && r.videoTitle == videoTitle) = []) :
    (getStudentReport analytics viewing notes videoTitle sessionId
      userId).quizPerformance.totalQuestions = 0 ∧
    (getStudentReport analytics viewing notes videoTitle sessionId
      userId).quizPerformance.accuracyPercentage = 0 ∧
    (getStudentReport analytics viewing notes videoTitle sessionId
      userId).summary.feedback = "No quiz data available for this session." := by
  have hq : analytics.foldl (quizStep sessionId videoTitle) ⟨0, 0, 0, 0, []⟩ =
      ⟨0, 0, 0, 0, []⟩ := quizFold_nil sessionId videoTitle analytics h _
  refine ⟨?_, ?_, ?_⟩
  · simp [getStudentReport, hq]
  · simp [getStudentReport, hq]
  · simp only [getStudentReport, hq, generateReportSummary]
    split <;> simp

/-- Witness for C8: an empty analytics log trivially has no matching rows,
and the report shows zero questions, zero accuracy, and the no-quiz-data
feedback. -/
theorem c8_witness :
    ([] : List AnalyticsRow).filter
      (fun r => r.sessionId == "s" && r.videoTitle == "V") = [] ∧
    (getStudentReport [] [] [] "V" "s" "u").quizPerformance.totalQuestions = 0 ∧
    (getStudentReport [] [] [] "V" "s" "u").quizPerformance.accuracyPercentage
      = 0 ∧
    (getStudentReport [] [] [] "V" "s" "u").summary.feedback =
      "No quiz data available for this session." := by
  have h : ([] : List AnalyticsRow).filter
      (fun r => r.sessionId == "s" && r.videoTitle == "V") = [] := rfl
  have hc := c8_zero_attempts_report [] [] [] "V" "s" "u" h
  exact ⟨h, hc.1, hc.2.1, hc.2.2⟩
